import Mathlib

/-!
Verification of the tabular data transform engine of
node-red-contrib-google-spreadsheet-plus, a shallow embedding of
lib/transformers/DataTransformer.js.

The first part is a pure (structural) embedding: JavaScript values are the
inductive type JSVal, a spreadsheet grid is a list of rows of cells, and each
method of the DataTransformer class becomes a Lean function with the same name
and the same branch structure.  Fallible code paths (the explicit
`throw new Error('Unsupported data format')` and the TypeErrors raised by
property accesses on null / shifts on non-arrays) return Except values.

Modelling notes for the pure embedding:
  - JavaScript objects are ordered association lists; `for ... in` iterates
    them in insertion order (the inputs of interest carry no integer-like
    keys, for which JavaScript would reorder the iteration).
  - JavaScript numbers appear here as integers; the transformer never
    computes with them, it only moves them around and stringifies them.
  - Strict equality (===) on cells is modelled by jsEq, which is structural
    on primitives; two array or object cells are compared by reference in
    JavaScript, so in this structural model they never compare equal.

The second part is a store-passing embedding of the same methods in which
arrays have identities (indices into a store).  It exists to settle the
aliasing claims: which arrays of the result of the write encoder are freshly
allocated, and that the read decoder never mutates the caller's grid.
-/

inductive JSVal where
  | str (s : String)
  | num (n : Int)
  | bool (b : Bool)
  | null
  | undef
  | arr (xs : List JSVal)
  | obj (fields : List (String × JSVal))

abbrev Grid := List (List JSVal)

/-- Errors a DataTransformer call can raise: the explicit
`throw new Error('Unsupported data format')` in transform, and the implicit
TypeErrors (property access on null, shift on a non-array). -/
inductive JSError where
  | unsupported
  | typeError
deriving DecidableEq, Repr

/-- One configuration object, as read by the DataTransformer methods:
`fields` ("all" or a field-selection marker), `selfields` (the selected field
names, absent when the property is not set), `method`, the `line` and
`column` header flags, and the `direction` hint. -/
structure Config where
  fields : String
  selfields : Option (List String)
  method : String
  line : Bool
  column : Bool
  direction : Option String

/-- The test `current[key].length === undefined` on a plain object: true when
the object has no own "length" entry, or that entry holds undefined. -/
def lengthUndef (fs : List (String × JSVal)) : Bool :=
  match fs.lookup "length" with
  | none => true
  | some .undef => true
  | some _ => false

/-- typeof v === 'object' (true for null, arrays and plain objects). -/
def isTypeofObject : JSVal → Bool
  | .null => true
  | .arr _ => true
  | .obj _ => true
  | _ => false

/-- Array.isArray. -/
def isArrayVal : JSVal → Bool
  | .arr _ => true
  | _ => false

/-- Strict equality (===) on cell values.  Structural on primitives; array
and object operands are compared by reference in JavaScript, so two such
cells in this structural model never compare equal. -/
def jsEq : JSVal → JSVal → Bool
  | .str a, .str b => a == b
  | .num a, .num b => a == b
  | .bool a, .bool b => a == b
  | .null, .null => true
  | .undef, .undef => true
  | _, _ => false

/-- The guard `(config.selfields && config.selfields[0]) ?
Array.from(config.selfields) : undefined` of transform: the selected-field
list is used only when it exists and its first element is truthy (the
entries are field-name strings, so truthy means non-empty). -/
def fieldsOf (config : Config) : Option (List String) :=
  match config.selfields with
  | some (h :: t) => if h = "" then none else some (h :: t)
  | _ => none

/-- Key of a nested entry: `prefix ? prefix + '.' + key : key`. -/
def fullKey (pre k : String) : String :=
  if pre = "" then k else pre ++ "." ++ k

/-- Own enumerable entries walked by `for (const key in current)`: the fields
of an object in insertion order, the indexed elements of an array, the
indexed characters of a string, and nothing for the remaining values. -/
def enumEntries : JSVal → List (String × JSVal)
  | .obj fs => fs
  | .arr xs => xs.enum.map (fun p => (toString p.1, p.2))
  | .str s => s.toList.enum.map (fun p => (toString p.1, JSVal.str (String.singleton p.2)))
  | _ => []

/-- The recursive `extract` closure of extractObjectValues, walking a list of
entries under a key prefix.  An entry value recurses exactly when it passes
`typeof v === 'object' && v && v.length === undefined`; every other value is
a leaf stored verbatim. -/
def extractGo (pre : String) : List (String × JSVal) → List String × List JSVal
  | [] => ([], [])
  | (k, v) :: rest =>
    let fk := fullKey pre k
    let hd : List String × List JSVal :=
      match v with
      | .obj fs => if lengthUndef fs then extractGo fk fs else ([fk], [JSVal.obj fs])
      | w => ([fk], [w])
    let tl := extractGo pre rest
    (hd.1 ++ tl.1, hd.2 ++ tl.2)
termination_by l => sizeOf l

/-- DataTransformer.extractObjectValues: flatten a nested record into
parallel key and value lists. -/
def extractObjectValues (v : JSVal) : List String × List JSVal :=
  extractGo "" (enumEntries v)

/-- The selected-fields inner loop: for each requested field, look up its
index in the extracted keys and push the value at that index; requested
fields absent from the record are skipped. -/
def selectRow (fl : List String) (ex : List String × List JSVal) : List JSVal :=
  fl.filterMap (fun f =>
    match ex.1.findIdx? (fun k => k = f) with
    | some i => some ((ex.2.get? i).getD .undef)
    | none => none)

/-- DataTransformer.transformArrayOfObjects. -/
def transformArrayOfObjects (rows : List JSVal) (config : Config)
    (fields : Option (List String)) : Grid :=
  if config.fields == "all" then
    let values := rows.map (fun o => (extractObjectValues o).2)
    if config.method == "new" && config.line then
      (extractObjectValues ((rows.get? 0).getD .undef)).1.map JSVal.str :: values
    else values
  else
    match fields with
    | some fl =>
      let values := rows.map (fun o => selectRow fl (extractObjectValues o))
      if config.method == "new" && config.line then fl.map JSVal.str :: values
      else values
    | none => []

/-- Indexing `data[k]` on an object: the value at key k, undefined when absent. -/
def objIndex (fs : List (String × JSVal)) (k : String) : JSVal :=
  (fs.lookup k).getD (.undef)

/-- DataTransformer.addColumnLabels.  The source mutates `values` in place
with unshift; here the prepended rows are rebuilt.  Indexing a missing row
(`values[i]` past the end) raises a TypeError in the source, reported here
as an error value. -/
def addColumnLabels (values : Grid) (labels : List String) (hasLineHeaders : Bool) :
    Except JSError Grid :=
  if hasLineHeaders then
    match values with
    | [] => .error .typeError
    | h :: rest =>
      if labels.length ≤ rest.length then
        .ok ((JSVal.str "Elements" :: h) ::
          ((labels.zip rest).map (fun p => JSVal.str p.1 :: p.2) ++ rest.drop labels.length))
      else .error .typeError
  else
    if labels.length ≤ values.length then
      .ok ((labels.zip values).map (fun p => JSVal.str p.1 :: p.2) ++ values.drop labels.length)
    else .error .typeError

/-- DataTransformer.transformObjectOfObjects. -/
def transformObjectOfObjects (data : List (String × JSVal)) (config : Config)
    (fields : Option (List String)) : Except JSError Grid :=
  if config.fields == "all" then
    let values := data.map (fun kv => (extractObjectValues kv.2).2)
    let labels := data.map Prod.fst
    if config.method == "new" then
      let values1 :=
        if config.line then
          let firstKey := (labels.get? 0).getD "undefined"
          (extractObjectValues (objIndex data firstKey)).1.map JSVal.str :: values
        else values
      if config.column then addColumnLabels values1 labels config.line
      else .ok values1
    else .ok values
  else
    match fields with
    | some fl =>
      let values := data.map (fun kv => selectRow fl (extractObjectValues kv.2))
      let labels := data.map Prod.fst
      if config.method == "new" then
        let values1 := if config.line then fl.map JSVal.str :: values else values
        if config.column then addColumnLabels values1 labels config.line
        else .ok values1
      else .ok values
    | none => .ok []

/-- A freshly built grid, viewed as the JavaScript array-of-arrays value the
encoder returns. -/
def gridVal (g : Grid) : JSVal :=
  .arr (g.map JSVal.arr)

/-- DataTransformer.transform: the write-side dispatch.  The branches appear
in source order: primitive wrap; array-of-arrays pass-through (which returns
the input value itself, hence the result type JSVal); single-value scalar
array wrap; array of objects; object of objects (reached by any object whose
length property is undefined — `data.length` on null raises a TypeError
first); everything else is 'Unsupported data format'. -/
def transform (data : JSVal) (config : Config) : Except JSError JSVal :=
  let fields := fieldsOf config
  match data with
  | .str s => .ok (gridVal [[.str s]])
  | .num n => .ok (gridVal [[.num n]])
  | .bool b => .ok (gridVal [[.bool b]])
  | .arr xs =>
    match xs with
    | [] => .error .unsupported
    | x :: rest =>
      if isArrayVal x then .ok (.arr xs)
      else if rest.isEmpty && !isTypeofObject x then .ok (gridVal [[x]])
      else .ok (gridVal (transformArrayOfObjects xs config fields))
  | .null => .error .typeError
  | .undef => .error .unsupported
  | .obj fs =>
    if lengthUndef fs then Except.map gridVal (transformObjectOfObjects fs config fields)
    else .error .unsupported

/-- DataTransformer.copyValuesArray, content view: each array row is copied
with Array.from, so the content is unchanged.  The identity-tracking version
is copyValuesArrayRef below. -/
def copyValuesArray (values : Grid) : Grid :=
  values.map (fun row => row)

mutual

/-- Conversion of a cell to a property key, as `objet[item] = ...` coerces
its index: String(x).  Arrays stringify as the comma-join of their elements
(null and undefined joining as empty), objects as "[object Object]". -/
def toPropKey : JSVal → String
  | .str s => s
  | .num n => toString n
  | .bool b => cond b "true" "false"
  | .null => "null"
  | .undef => "undefined"
  | .arr xs => joinCells xs
  | .obj _ => "[object Object]"

def joinCells : List JSVal → String
  | [] => ""
  | [c] => elemStr c
  | c :: rest => elemStr c ++ "," ++ joinCells rest

def elemStr : JSVal → String
  | .null => ""
  | .undef => ""
  | v => toPropKey v

end

/-- Property assignment `o[k] = v` on an ordered object: overwrite in place
when the key exists, append otherwise. -/
def objAssign : List (String × JSVal) → String → JSVal → List (String × JSVal)
  | [], k, v => [(k, v)]
  | (k', v') :: rest, k, v =>
    if k' = k then (k, v) :: rest else (k', v') :: objAssign rest k v

/-- The inner loop shared by the decode paths that zip a label row against a
data row: `for (let i = 0; i < obj.length; i++) newl[line_labels[i]] = obj[i]`.
A label index past the end of the label row reads undefined, giving the key
"undefined". -/
def buildRecord (labels row : List JSVal) : List (String × JSVal) :=
  row.enum.foldl
    (fun acc p => objAssign acc (toPropKey ((labels.get? p.1).getD .undef)) p.2) []

/-- DataTransformer._transformWithSingleHeader: shift the first cell off
every row and map it to the remaining row. -/
def _transformWithSingleHeader (response : Grid) : JSVal :=
  .obj (response.foldl
    (fun acc row => objAssign acc (toPropKey ((row.get? 0).getD .undef)) (.arr row.tail)) [])

/-- DataTransformer._transformWithBothHeaders: the first row (minus its
corner cell) gives the column labels; each later row's first cell labels the
record built from its remaining cells.  On an empty grid the source shifts
undefined and then calls shift on it, a TypeError. -/
def _transformWithBothHeaders (response : Grid) : Except JSError JSVal :=
  match response with
  | [] => .error .typeError
  | labels :: rest =>
    .ok (.obj (rest.foldl
      (fun acc row =>
        objAssign acc (toPropKey ((row.get? 0).getD .undef))
          (.obj (buildRecord labels.tail row.tail))) []))

/-- DataTransformer._transformToObjectArray: the first row gives the field
names; every later row becomes a record by positional zipping. -/
def _transformToObjectArray (response : Grid) : JSVal :=
  match response with
  | [] => .arr []
  | labels :: rest => .arr (rest.map (fun row => JSVal.obj (buildRecord labels row)))

/-- DataTransformer.transformGetResponse: the read-side dispatch over the
header flags and the major dimension. -/
def transformGetResponse (values : Grid) (config : Config) (majorDimension : String) :
    Except JSError JSVal :=
  let response := copyValuesArray values
  if !config.line && !config.column then
    if response.length == 1 && ((response.get? 0).getD []).length == 1 then
      .ok ((((response.get? 0).getD []).get? 0).getD .undef)
    else .ok (.arr (response.map JSVal.arr))
  else if config.line && config.column then
    _transformWithBothHeaders response
  else if (config.column && (majorDimension == "COLUMNS" || config.direction == some "column")) ||
      (config.line && (majorDimension == "ROWS" || config.direction == some "line")) then
    .ok (_transformWithSingleHeader response)
  else
    .ok (_transformToObjectArray response)

/-- The scan of rows 1..n of transformCellResponse: the first row whose
first cell strictly equals the row label decides the result; its cell at the
column index is returned unless absent or the empty string. -/
def cellScan : List (List JSVal) → JSVal → Nat → JSVal
  | [], _, _ => .str "Not found"
  | row :: rest, l, ci =>
    if jsEq ((row.get? 0).getD .undef) l then
      let cellValue := (row.get? ci).getD .undef
      if !jsEq cellValue .undef && !jsEq cellValue (.str "") then cellValue
      else .str "Not found"
    else cellScan rest l ci

/-- DataTransformer.transformCellResponse: point lookup of a cell by row
label and column label, with "Not found" as the sentinel result value. -/
def transformCellResponse (values : Grid) (cell_l cell_c : JSVal) : JSVal :=
  match values with
  | [] => .str "Not found"
  | headerRow :: rest =>
    match headerRow.findIdx? (fun c => jsEq c cell_c) with
    | none => .str "Not found"
    | some colIndex => cellScan rest cell_l colIndex

/-- Modelled from the claim's wording, for comparison with
transformCellResponse: the lookup as an Option, none exactly when the column
label is absent from row 0, no later row starts with the row label, or the
first matching row's cell at the matched column index is absent or empty. -/
def pointLookupSpec (values : Grid) (cell_l cell_c : JSVal) : Option JSVal :=
  match values with
  | [] => none
  | headerRow :: rest =>
    match headerRow.findIdx? (fun c => jsEq c cell_c) with
    | none => none
    | some ci =>
      match rest.find? (fun row => jsEq ((row.get? 0).getD .undef) cell_l) with
      | none => none
      | some row =>
        let cv := (row.get? ci).getD .undef
        if jsEq cv .undef || jsEq cv (.str "") then none else some cv

/-! Concrete values used by several claims: the worked example of the spec
(two records with name and age fields) and its encoded grid. -/

def recJohn : JSVal := .obj [("name", .str "John"), ("age", .num 30)]

def recJane : JSVal := .obj [("name", .str "Jane"), ("age", .num 25)]

/-- The write configuration of the round-trip example: all fields, line
header, method "new". -/
def cfgWrite : Config := ⟨"all", none, "new", true, false, none⟩

/-- The read configuration of the round-trip example: only the line-header
flag is set, no direction hint. -/
def cfgLineOnly : Config := ⟨"", none, "", true, false, none⟩

def gridNA : Grid :=
  [[.str "name", .str "age"], [.str "John", .num 30], [.str "Jane", .num 25]]

/-- Row access v[i] on a decoded or encoded value, defined when v is an
array whose i-th element is itself an array. -/
def rowAt (v : JSVal) (i : Nat) : Option (List JSVal) :=
  match v with
  | .arr xs =>
    match xs.get? i with
    | some (.arr r) => some r
    | _ => none
  | _ => none

/-! The identity-tracking embedding.  Arrays are references (indices) into a
store; every other value is structural.  JavaScript objects are kept
structural (the claims under study concern array aliasing only).  A
mutating array operation is a store write; Array.from allocates; a fresh
array literal allocates once with its final contents, which is
observationally equivalent to building it by push. -/

/-- Scalar payloads of the identity-tracking model. -/
inductive RScalar where
  | s (x : String)
  | n (x : Int)
  | b (x : Bool)
  | jsnull
  | jsundef

/-- A value of the identity-tracking model: a scalar, a reference to an
array in the store, or a structural object. -/
inductive RCell where
  | v (x : RScalar)
  | ref (id : Nat)
  | objv (fs : List (String × RCell))

/-- The array store: arrs[i] holds the contents of the array with identity
i; allocation appends. -/
structure Store where
  arrs : List (List RCell)

/-- Allocate a new array, returning its identity. -/
def allocA (σ : Store) (l : List RCell) : Nat × Store :=
  (σ.arrs.length, ⟨σ.arrs ++ [l]⟩)

/-- Read the contents of an array. -/
def readA (σ : Store) (i : Nat) : List RCell :=
  (σ.arrs.get? i).getD []

/-- Overwrite the contents of an array (a mutating array operation). -/
def writeA (σ : Store) (i : Nat) (l : List RCell) : Store :=
  ⟨σ.arrs.set i l⟩

/-- row.unshift(c). -/
def unshiftRow (σ : Store) (rid : Nat) (c : RCell) : Store :=
  writeA σ rid (c :: readA σ rid)

/-- arr.push(c), used to mutate a returned grid in the aliasing
counterexample. -/
def pushCell (σ : Store) (rid : Nat) (c : RCell) : Store :=
  writeA σ rid (readA σ rid ++ [c])

/-- Array.isArray in the identity-tracking model. -/
def isArrayCellR : RCell → Bool
  | .ref _ => true
  | _ => false

/-- typeof c !== 'object' (true for the non-null scalars, including
undefined). -/
def typeofNotObjectR : RCell → Bool
  | .v .jsnull => false
  | .v _ => true
  | _ => false

/-- String(x) for a scalar. -/
def scalarKey : RScalar → String
  | .s x => x
  | .n x => toString x
  | .b x => cond x "true" "false"
  | .jsnull => "null"
  | .jsundef => "undefined"

mutual

/-- String(c) for a cell used as a property key: an array reference joins
its current elements with commas (null and undefined joining as empty); the
fuel bounds the dereferencing depth, mirroring the cycle cut-off of the
join algorithm (a revisited array renders as the empty string). -/
def cellKeyFuel (σ : Store) : Nat → RCell → String
  | _, .v x => scalarKey x
  | _, .objv _ => "[object Object]"
  | 0, .ref _ => ""
  | fuel + 1, .ref rid => joinRef σ fuel (readA σ rid)
termination_by fuel c => (fuel, sizeOf c)

def joinRef (σ : Store) : Nat → List RCell → String
  | _, [] => ""
  | fuel, [c] =>
    match c with
    | .v .jsnull => ""
    | .v .jsundef => ""
    | c' => cellKeyFuel σ fuel c'
  | fuel, c :: rest =>
    (match c with
     | .v .jsnull => ""
     | .v .jsundef => ""
     | c' => cellKeyFuel σ fuel c') ++ "," ++ joinRef σ fuel rest
termination_by fuel l => (fuel, sizeOf l)

end

/-- String(c), with fuel sufficient for any acyclic chain through the
store. -/
def cellKey (σ : Store) (c : RCell) : String :=
  cellKeyFuel σ (σ.arrs.length + 1) c

/-- x.length of a cell: the current length of an array, the length of a
string, the numeric length property of an object if any; none stands for
undefined (or a non-numeric length property, which compares and bounds
loops the same way here). -/
def cellLength (σ : Store) : RCell → Option Int
  | .ref rid => some (readA σ rid).length
  | .v (.s x) => some x.length
  | .objv fs =>
    match fs.lookup "length" with
    | some (.v (.n m)) => some m
    | _ => none
  | _ => none

/-- Iteration count of `for (let i = 0; i < x.length; i++)`: zero when the
length is undefined or negative. -/
def cellLoopLen (σ : Store) (c : RCell) : Nat :=
  match cellLength σ c with
  | some m => m.toNat
  | none => 0

/-- x[i] on a cell: current element of an array, character of a string,
indexed property of an object, undefined otherwise. -/
def cellIndex (σ : Store) (c : RCell) (i : Nat) : RCell :=
  match c with
  | .ref rid => ((readA σ rid).get? i).getD (.v .jsundef)
  | .v (.s x) =>
    match x.toList.get? i with
    | some ch => .v (.s (String.singleton ch))
    | none => .v .jsundef
  | .objv fs => (fs.lookup (toString i)).getD (.v .jsundef)
  | _ => .v (.jsundef)

/-- A decoded value of the identity-tracking model: a cell, a reference to
a (copied) grid, an object, or an array of decoded values. -/
inductive RDec where
  | cell (c : RCell)
  | aref (id : Nat)
  | omap (m : List (String × RDec))
  | dlist (xs : List RDec)

/-- Property assignment on a decoded object. -/
def objAssignR : List (String × RDec) → String → RDec → List (String × RDec)
  | [], k, v => [(k, v)]
  | (k', v') :: rest, k, v =>
    if k' = k then (k, v) :: rest else (k', v') :: objAssignR rest k v

/-- DataTransformer.copyValuesArray, identity-tracking version: the row
copy loop.  Each array row is reallocated with its current contents
(Array.from); a non-array row passes through by reference. -/
def copyRowsRef (σ : Store) : List RCell → List RCell × Store
  | [] => ([], σ)
  | c :: rest =>
    match c with
    | .ref rid =>
      let nid := (allocA σ (readA σ rid)).1
      let σ1 := (allocA σ (readA σ rid)).2
      let next := copyRowsRef σ1 rest
      (.ref nid :: next.1, next.2)
    | other =>
      let next := copyRowsRef σ rest
      (other :: next.1, next.2)

/-- DataTransformer.copyValuesArray: copy the rows and allocate a fresh
outer array. -/
def copyValuesArrayRef (σ : Store) (vid : Nat) : Nat × Store :=
  let rows := (copyRowsRef σ (readA σ vid)).1
  let σ1 := (copyRowsRef σ (readA σ vid)).2
  allocA σ1 rows

/-- The zipping loop `for (let i = 0; i < obj.length; i++)
newl[line_labels[i]] = obj[i]` over live cells. -/
def buildRecordGenRef (σ : Store) (labels obj : RCell) : List (String × RDec) :=
  (List.range (cellLoopLen σ obj)).foldl (fun acc i =>
    objAssignR acc (cellKey σ (cellIndex σ labels i)) (.cell (cellIndex σ obj i))) []

/-- The row loop of _transformWithBothHeaders: shift each row, then zip the
current label row against the shifted row. -/
def bothLoopRef (lid : RCell) : Store → List RCell → List (String × RDec) →
    Except JSError (List (String × RDec)) × Store
  | σ, [], acc => (.ok acc, σ)
  | σ, c :: more, acc =>
    match c with
    | .ref rid =>
      let cells := readA σ rid
      let σ1 := writeA σ rid cells.tail
      bothLoopRef lid σ1 more
        (objAssignR acc (cellKey σ1 ((cells.get? 0).getD (.v .jsundef)))
          (.omap (buildRecordGenRef σ1 lid (.ref rid))))
    | _ => (.error .typeError, σ)

/-- DataTransformer._transformWithBothHeaders, identity-tracking version:
shift the label row off the outer array, shift its corner cell off, then
run the row loop.  On an empty grid, or when the label row is not an array,
the shift raises a TypeError. -/
def _transformWithBothHeadersRef (σ : Store) (cid : Nat) : Except JSError RDec × Store :=
  match readA σ cid with
  | [] => (.error .typeError, σ)
  | first :: rest =>
    let σ1 := writeA σ cid rest
    match first with
    | .ref lid =>
      let σ2 := writeA σ1 lid (readA σ1 lid).tail
      let r := bothLoopRef first σ2 rest []
      match r.1 with
      | .ok m => (.ok (.omap m), r.2)
      | .error e => (.error e, r.2)
    | _ => (.error .typeError, σ1)

/-- The row loop of _transformWithSingleHeader: shift each row and map the
shifted cell to the row itself (by reference). -/
def singleLoopRef : Store → List RCell → List (String × RDec) →
    Except JSError (List (String × RDec)) × Store
  | σ, [], acc => (.ok acc, σ)
  | σ, c :: more, acc =>
    match c with
    | .ref rid =>
      let cells := readA σ rid
      let σ1 := writeA σ rid cells.tail
      singleLoopRef σ1 more
        (objAssignR acc (cellKey σ1 ((cells.get? 0).getD (.v .jsundef))) (.cell (.ref rid)))
    | _ => (.error .typeError, σ)

/-- DataTransformer._transformWithSingleHeader, identity-tracking
version. -/
def _transformWithSingleHeaderRef (σ : Store) (cid : Nat) : Except JSError RDec × Store :=
  let r := singleLoopRef σ (readA σ cid) []
  match r.1 with
  | .ok m => (.ok (.omap m), r.2)
  | .error e => (.error e, r.2)

/-- DataTransformer._transformToObjectArray, identity-tracking version:
shift the label row off the outer array, then build one record per
remaining row without mutating the rows. -/
def _transformToObjectArrayRef (σ : Store) (cid : Nat) : Except JSError RDec × Store :=
  match readA σ cid with
  | [] => (.ok (.dlist []), σ)
  | first :: rest =>
    let σ1 := writeA σ cid rest
    (.ok (.dlist (rest.map (fun obj => RDec.omap (buildRecordGenRef σ1 first obj)))), σ1)

/-- DataTransformer.transformGetResponse, identity-tracking version: copy
the grid defensively, then dispatch exactly as the pure embedding does. -/
def transformGetResponseRef (σ : Store) (vid : Nat) (config : Config)
    (majorDimension : String) : Except JSError RDec × Store :=
  let cid := (copyValuesArrayRef σ vid).1
  let σ1 := (copyValuesArrayRef σ vid).2
  if !config.line && !config.column then
    let rows := readA σ1 cid
    if rows.length == 1 && cellLength σ1 ((rows.get? 0).getD (.v .jsundef)) == some 1 then
      (.ok (.cell (cellIndex σ1 ((rows.get? 0).getD (.v .jsundef)) 0)), σ1)
    else (.ok (.aref cid), σ1)
  else if config.line && config.column then
    _transformWithBothHeadersRef σ1 cid
  else if (config.column && (majorDimension == "COLUMNS" || config.direction == some "column")) ||
      (config.line && (majorDimension == "ROWS" || config.direction == some "line")) then
    _transformWithSingleHeaderRef σ1 cid
  else
    _transformToObjectArrayRef σ1 cid

/-- Enumeration by `for ... in` in the identity-tracking model: fields of an
object, indexed current elements of an array, indexed characters of a
string. -/
def enumEntriesR (σ : Store) : RCell → List (String × RCell)
  | .objv fs => fs
  | .ref rid => (readA σ rid).enum.map (fun p => (toString p.1, p.2))
  | .v (.s x) => x.toList.enum.map (fun p => (toString p.1, RCell.v (.s (String.singleton p.2))))
  | _ => []

/-- The test `current[key].length === undefined` over model cells. -/
def lengthUndefR (fs : List (String × RCell)) : Bool :=
  match fs.lookup "length" with
  | none => true
  | some (.v .jsundef) => true
  | some _ => false

/-- The extract walk over model cells; array references are leaves (their
length is defined), so extraction never dereferences the store below the
top level. -/
def extractGoR (pre : String) : List (String × RCell) → List String × List RCell
  | [] => ([], [])
  | (k, c) :: rest =>
    let fk := fullKey pre k
    let hd : List String × List RCell :=
      match c with
      | .objv fs => if lengthUndefR fs then extractGoR fk fs else ([fk], [RCell.objv fs])
      | w => ([fk], [w])
    let tl := extractGoR pre rest
    (hd.1 ++ tl.1, hd.2 ++ tl.2)
termination_by l => sizeOf l

/-- DataTransformer.extractObjectValues, identity-tracking version. -/
def extractObjectValuesRef (σ : Store) (c : RCell) : List String × List RCell :=
  extractGoR "" (enumEntriesR σ c)

/-- The selected-fields inner loop over model cells. -/
def selectRowR (fl : List String) (ex : List String × List RCell) : List RCell :=
  fl.filterMap (fun f =>
    match ex.1.findIdx? (fun k => k = f) with
    | some i => some ((ex.2.get? i).getD (.v .jsundef))
    | none => none)

/-- The all-fields row loop of transformArrayOfObjects: extract each record
and push the extracted values as a freshly allocated row. -/
def aooLoopAll (σ : Store) : List RCell → List Nat × Store
  | [] => ([], σ)
  | o :: rest =>
    let row := (extractObjectValuesRef σ o).2
    let rid := (allocA σ row).1
    let σ1 := (allocA σ row).2
    let next := aooLoopAll σ1 rest
    (rid :: next.1, next.2)

/-- The selected-fields row loop of transformArrayOfObjects. -/
def aooLoopSel (fl : List String) (σ : Store) : List RCell → List Nat × Store
  | [] => ([], σ)
  | o :: rest =>
    let row := selectRowR fl (extractObjectValuesRef σ o)
    let rid := (allocA σ row).1
    let σ1 := (allocA σ row).2
    let next := aooLoopSel fl σ1 rest
    (rid :: next.1, next.2)

/-- DataTransformer.transformArrayOfObjects, identity-tracking version:
emit freshly allocated rows, optionally a freshly allocated header row, and
a fresh outer array of row references. -/
def transformArrayOfObjectsRef (σ : Store) (rows : List RCell) (config : Config)
    (fields : Option (List String)) : Nat × Store :=
  if config.fields == "all" then
    let rids := (aooLoopAll σ rows).1
    let σ1 := (aooLoopAll σ rows).2
    if config.method == "new" && config.line then
      let hk := (extractObjectValuesRef σ1 ((rows.get? 0).getD (.v .jsundef))).1
      let hid := (allocA σ1 (hk.map (fun k => RCell.v (.s k)))).1
      let σ2 := (allocA σ1 (hk.map (fun k => RCell.v (.s k)))).2
      allocA σ2 (.ref hid :: rids.map RCell.ref)
    else allocA σ1 (rids.map RCell.ref)
  else
    match fields with
    | some fl =>
      let rids := (aooLoopSel fl σ rows).1
      let σ1 := (aooLoopSel fl σ rows).2
      if config.method == "new" && config.line then
        let hid := (allocA σ1 (fl.map (fun k => RCell.v (.s k)))).1
        let σ2 := (allocA σ1 (fl.map (fun k => RCell.v (.s k)))).2
        allocA σ2 (.ref hid :: rids.map RCell.ref)
      else allocA σ1 (rids.map RCell.ref)
    | none => allocA σ []

/-- The label loop of addColumnLabels: unshift one label onto each row in
turn; running out of rows is the TypeError of indexing a missing row. -/
def labelLoopRef : Store → List String → List Nat → Except JSError Unit × Store
  | σ, [], _ => (.ok (), σ)
  | σ, l :: ls, rid :: rest => labelLoopRef (unshiftRow σ rid (.v (.s l))) ls rest
  | σ, _ :: _, [] => (.error .typeError, σ)

/-- DataTransformer.addColumnLabels, identity-tracking version: mutates the
listed rows in place. -/
def addColumnLabelsRef (σ : Store) (rowIds : List Nat) (labels : List String)
    (hasLineHeaders : Bool) : Except JSError Unit × Store :=
  if hasLineHeaders then
    match rowIds with
    | [] => (.error .typeError, σ)
    | r0 :: rest => labelLoopRef (unshiftRow σ r0 (.v (.s "Elements"))) labels rest
  else labelLoopRef σ labels rowIds

/-- The shared tail of the two field branches of transformObjectOfObjects:
optionally run addColumnLabels over the collected rows, then return the
fresh outer array of row references. -/
def oooFinish (σ2 : Store) (rids1 : List Nat) (labels : List String) (ln col : Bool) :
    Except JSError Nat × Store :=
  if col then
    let r := addColumnLabelsRef σ2 rids1 labels ln
    match r.1 with
    | .ok _ => ((.ok (allocA r.2 (rids1.map RCell.ref)).1), (allocA r.2 (rids1.map RCell.ref)).2)
    | .error e => (.error e, r.2)
  else ((.ok (allocA σ2 (rids1.map RCell.ref)).1), (allocA σ2 (rids1.map RCell.ref)).2)

/-- DataTransformer.transformObjectOfObjects, identity-tracking version. -/
def transformObjectOfObjectsRef (σ : Store) (data : List (String × RCell)) (config : Config)
    (fields : Option (List String)) : Except JSError Nat × Store :=
  if config.fields == "all" then
    let rids := (aooLoopAll σ (data.map Prod.snd)).1
    let σ1 := (aooLoopAll σ (data.map Prod.snd)).2
    let labels := data.map Prod.fst
    if config.method == "new" then
      let firstKey := (labels.get? 0).getD "undefined"
      let hk := (extractObjectValuesRef σ1 ((data.lookup firstKey).getD (.v .jsundef))).1
      if config.line then
        oooFinish (allocA σ1 (hk.map (fun k => RCell.v (.s k)))).2
          ((allocA σ1 (hk.map (fun k => RCell.v (.s k)))).1 :: rids) labels true config.column
      else oooFinish σ1 rids labels false config.column
    else ((.ok (allocA σ1 (rids.map RCell.ref)).1), (allocA σ1 (rids.map RCell.ref)).2)
  else
    match fields with
    | some fl =>
      let rids := (aooLoopSel fl σ (data.map Prod.snd)).1
      let σ1 := (aooLoopSel fl σ (data.map Prod.snd)).2
      let labels := data.map Prod.fst
      if config.method == "new" then
        if config.line then
          oooFinish (allocA σ1 (fl.map (fun k => RCell.v (.s k)))).2
            ((allocA σ1 (fl.map (fun k => RCell.v (.s k)))).1 :: rids) labels true config.column
        else oooFinish σ1 rids labels false config.column
      else ((.ok (allocA σ1 (rids.map RCell.ref)).1), (allocA σ1 (rids.map RCell.ref)).2)
    | none => ((.ok (allocA σ []).1), (allocA σ []).2)

/-- A data value is grid-shaped when it is a non-empty array whose first
element is itself an array: the pass-through branch of transform. -/
def isGridShapedR (σ : Store) (data : RCell) : Bool :=
  match data with
  | .ref id =>
    match readA σ id with
    | [] => false
    | x :: _ => isArrayCellR x
  | _ => false

/-- DataTransformer.transform, identity-tracking version.  The grid-shaped
pass-through branch returns the caller-supplied array reference itself. -/
def transformRef (σ : Store) (data : RCell) (config : Config) :
    Except JSError RCell × Store :=
  let fields := fieldsOf config
  match data with
  | .v .jsnull => (.error .typeError, σ)
  | .v .jsundef => (.error .unsupported, σ)
  | .v x =>
    let rid := (allocA σ [.v x]).1
    let σ1 := (allocA σ [.v x]).2
    ((.ok (.ref (allocA σ1 [.ref rid]).1)), (allocA σ1 [.ref rid]).2)
  | .objv fs =>
    if lengthUndefR fs then
      let r := transformObjectOfObjectsRef σ fs config fields
      match r.1 with
      | .ok oid => (.ok (.ref oid), r.2)
      | .error e => (.error e, r.2)
    else (.error .unsupported, σ)
  | .ref id =>
    match readA σ id with
    | [] => (.error .unsupported, σ)
    | x :: rest =>
      if isArrayCellR x then (.ok (.ref id), σ)
      else if rest.isEmpty && typeofNotObjectR x then
        let rid := (allocA σ [x]).1
        let σ1 := (allocA σ [x]).2
        ((.ok (.ref (allocA σ1 [.ref rid]).1)), (allocA σ1 [.ref rid]).2)
      else
        let oid := (transformArrayOfObjectsRef σ (readA σ id) config fields).1
        let σ1 := (transformArrayOfObjectsRef σ (readA σ id) config fields).2
        (.ok (.ref oid), σ1)

/-- The store grows and every previously allocated array keeps exactly its
old contents: the frame property relating a store to one extended by a
DataTransformer call. -/
def ExtFrom (σ σ1 : Store) : Prop :=
  σ.arrs.length ≤ σ1.arrs.length ∧
  ∀ i, i < σ.arrs.length → σ1.arrs.get? i = σ.arrs.get? i

-- REF MODEL MARKER

/-! Theorems. -/

/-- Key and value lists produced by the extract walk always have the same
length. -/
theorem extractGo_lengths (pre : String) (l : List (String × JSVal)) :
    (extractGo pre l).1.length = (extractGo pre l).2.length := by
  induction pre, l using extractGo.induct with
  | case1 pre => simp [extractGo]
  | case2 pre k v rest fk ihObj ihTail =>
    cases v with
    | obj fs =>
      have hobj : (extractGo (fullKey pre k) fs).1.length =
          (extractGo (fullKey pre k) fs).2.length := ihObj
      by_cases h : lengthUndef fs <;> simp [extractGo, h, hobj, ihTail]
    | str s => simp [extractGo, ihTail]
    | num n => simp [extractGo, ihTail]
    | bool b => simp [extractGo, ihTail]
    | null => simp [extractGo, ihTail]
    | undef => simp [extractGo, ihTail]
    | arr xs => simp [extractGo, ihTail]

/-- C7: flattening a nested record produces dotted-path keys with arrays
kept as verbatim leaves: the nested example yields keys user.name, user.age
with values John, 30; the array example yields the single key items with the
array itself as its value; an array-valued entry always contributes exactly
itself as one leaf (it is never recursed into); and the key and value lists
always have the same length. -/
theorem C7_extract_flattening :
    extractObjectValues (.obj [("user", .obj [("name", .str "John"), ("age", .num 30)])]) =
      (["user.name", "user.age"], [.str "John", .num 30]) ∧
    extractObjectValues (.obj [("items", .arr [.num 1, .num 2, .num 3])]) =
      (["items"], [.arr [.num 1, .num 2, .num 3]]) ∧
    (∀ v : JSVal, (extractObjectValues v).1.length = (extractObjectValues v).2.length) ∧
    (∀ (pre k : String) (xs : List JSVal) (rest : List (String × JSVal)),
      extractGo pre ((k, .arr xs) :: rest) =
        (fullKey pre k :: (extractGo pre rest).1, .arr xs :: (extractGo pre rest).2)) := by
  refine ⟨?_, ?_, ?_, ?_⟩
  · simp [extractObjectValues, enumEntries, extractGo, fullKey, lengthUndef, List.lookup]
  · simp [extractObjectValues, enumEntries, extractGo, fullKey, lengthUndef, List.lookup]
  · intro v
    exact extractGo_lengths "" (enumEntries v)
  · intro pre k xs rest
    simp [extractGo]

/-- C10: during flattening, the record-vs-leaf decision is made by the
`length === undefined` test, not by Array.isArray: a non-array object whose
length property is defined is emitted verbatim as a single leaf (first
conjunct: the concrete example; second: the general leaf equation), while an
object whose length property is undefined is recursed into (third). -/
theorem C10_length_classification :
    extractObjectValues (.obj [("a", .obj [("length", .num 2), ("x", .num 1)])]) =
      (["a"], [.obj [("length", .num 2), ("x", .num 1)]]) ∧
    (∀ (pre k : String) (fs rest : List (String × JSVal)), lengthUndef fs = false →
      extractGo pre ((k, .obj fs) :: rest) =
        (fullKey pre k :: (extractGo pre rest).1, .obj fs :: (extractGo pre rest).2)) ∧
    (∀ (pre k : String) (fs rest : List (String × JSVal)), lengthUndef fs = true →
      extractGo pre ((k, .obj fs) :: rest) =
        ((extractGo (fullKey pre k) fs).1 ++ (extractGo pre rest).1,
          (extractGo (fullKey pre k) fs).2 ++ (extractGo pre rest).2)) := by
  refine ⟨?_, ?_, ?_⟩
  · simp [extractObjectValues, enumEntries, extractGo, fullKey, lengthUndef, List.lookup]
  · intro pre k fs rest h
    simp [extractGo, h]
  · intro pre k fs rest h
    simp [extractGo, h]

/-- C10 witness: the general leaf equation applied to the object with a
length field of 2 sitting under key a in an otherwise empty record. -/
theorem C10_length_classification_witness :
    lengthUndef [("length", JSVal.num 2)] = false ∧
    extractGo "" [("a", .obj [("length", JSVal.num 2)])] =
      (["a"], [.obj [("length", JSVal.num 2)]]) :=
  ⟨by simp [lengthUndef, List.lookup], by
    have h := C10_length_classification.2.1 "" "a" [("length", JSVal.num 2)] []
      (by simp [lengthUndef, List.lookup])
    simpa [extractGo, fullKey] using h⟩

/-- The row scan of transformCellResponse agrees with a find?-based
description: the first row whose first cell strictly equals the row label
decides the result. -/
theorem cellScan_spec (rest : List (List JSVal)) (l : JSVal) (ci : Nat) :
    cellScan rest l ci =
      (match rest.find? (fun row => jsEq ((row.get? 0).getD .undef) l) with
       | none => .str "Not found"
       | some row =>
         let cv := (row.get? ci).getD .undef
         if jsEq cv .undef || jsEq cv (.str "") then .str "Not found" else cv) := by
  induction rest with
  | nil => rfl
  | cons r rs ih =>
    simp only [cellScan, List.find?]
    cases h : jsEq ((r.get? 0).getD .undef) l with
    | true =>
      simp only [h, if_true]
      cases hu : jsEq ((r.get? ci).getD .undef) .undef <;>
        cases he : jsEq ((r.get? ci).getD .undef) (.str "") <;> simp [hu, he]
    | false =>
      simp only [h, if_false]
      exact ih

/-- C9: the point lookup returns the sentinel result value "Not found"
exactly when the column label is absent from the header row, no later row
starts with the row label, or the first matching row's cell at the matched
column index is absent or the empty string; otherwise it returns that
cell's value.  pointLookupSpec restates those conditions from the claim, and
transformCellResponse is a total function, so the sentinel is a result
value, never an exception. -/
theorem C9_point_lookup (values : Grid) (cell_l cell_c : JSVal) :
    transformCellResponse values cell_l cell_c =
      (pointLookupSpec values cell_l cell_c).getD (.str "Not found") := by
  cases values with
  | nil => rfl
  | cons h rest =>
    simp only [transformCellResponse, pointLookupSpec]
    cases hci : h.findIdx? (fun c => jsEq c cell_c) with
    | none => rfl
    | some ci =>
      dsimp only
      rw [cellScan_spec]
      cases hf : rest.find? (fun row => jsEq ((row.get? 0).getD .undef) cell_l) with
      | none => rfl
      | some row =>
        dsimp only
        cases hu : jsEq ((row.get? ci).getD .undef) .undef <;>
          cases he : jsEq ((row.get? ci).getD .undef) (.str "") <;> simp [hu, he]

/-- addColumnLabels never raises 'Unsupported data format': it either
succeeds or raises a TypeError. -/
theorem addColumnLabels_ne_unsupported (values : Grid) (labels : List String) (hl : Bool) :
    addColumnLabels values labels hl ≠ .error .unsupported := by
  unfold addColumnLabels
  repeat' split
  all_goals simp

/-- transformObjectOfObjects never raises 'Unsupported data format'. -/
theorem transformObjectOfObjects_ne_unsupported (data : List (String × JSVal))
    (config : Config) (fields : Option (List String)) :
    transformObjectOfObjects data config fields ≠ .error .unsupported := by
  unfold transformObjectOfObjects
  repeat' split
  all_goals first
    | apply addColumnLabels_ne_unsupported
    | simp

/-- transformObjectOfObjects on the empty object always succeeds. -/
theorem transformObjectOfObjects_nil_ok (config : Config) (fields : Option (List String)) :
    ∃ g, transformObjectOfObjects [] config fields = .ok g := by
  unfold transformObjectOfObjects
  repeat' split
  all_goals simp_all [addColumnLabels]

/-- C3 counterexample: the empty plain object does not raise
'Unsupported data format'; with any configuration not requesting new-sheet
headers it returns the empty grid. -/
theorem C3_empty_object_counterexample :
    transform (.obj []) ⟨"all", none, "append", false, false, none⟩ = .ok (gridVal []) := by
  rfl

/-- C3 amended: the write encoder raises 'Unsupported data format' exactly
when the input is undefined, the empty array, or a non-array object whose
length property is defined; null raises a TypeError instead (the dispatch
reads null.length); and the empty plain object is routed to the record-map
branch and always yields a grid. -/
theorem C3_unsupported_characterization (v : JSVal) (config : Config) :
    (transform v config = .error .unsupported ↔
      v = .undef ∨ v = .arr [] ∨ ∃ fs, v = .obj fs ∧ lengthUndef fs = false) ∧
    transform .null config = .error .typeError ∧
    (∃ g, transform (.obj []) config = .ok (gridVal g)) := by
  refine ⟨?_, rfl, ?_⟩
  · cases v with
    | str s => simp [transform]
    | num n => simp [transform]
    | bool b => simp [transform]
    | null => simp [transform]
    | undef => simp [transform]
    | arr xs =>
      cases xs with
      | nil => simp [transform]
      | cons x rest =>
        simp only [transform]
        split
        · simp
        · split <;> simp
    | obj fs =>
      by_cases h : lengthUndef fs
      · simp only [transform, h, if_true]
        constructor
        · intro hmap
          exfalso
          apply transformObjectOfObjects_ne_unsupported fs config (fieldsOf config)
          cases hoo : transformObjectOfObjects fs config (fieldsOf config) with
          | ok g => rw [hoo] at hmap; simp [Except.map] at hmap
          | error e => rw [hoo] at hmap; simp [Except.map] at hmap; rw [hmap]
        · rintro (h1 | h2 | ⟨fs', hfs, hlen⟩)
          · exact absurd h1 (by simp)
          · exact absurd h2 (by simp)
          · cases hfs
            rw [h] at hlen
            cases hlen
      · simp only [transform, h, if_false]
        constructor
        · intro
          exact Or.inr (Or.inr ⟨fs, rfl, by simpa using h⟩)
        · intro
          rfl
  · have ⟨g, hg⟩ := transformObjectOfObjects_nil_ok config (fieldsOf config)
    refine ⟨g, ?_⟩
    simp [transform, lengthUndef, List.lookup, hg, Except.map]

/-- C2: for the grid with header row name, age decoded with only the line
header set (no direction hint), a major dimension of COLUMNS takes the
mismatch branch and yields the array of records, while ROWS takes the
single-header branch and yields the mapping from each row's first cell to
its remaining cells. -/
theorem C2_orientation_fallback :
    transformGetResponse gridNA cfgLineOnly "COLUMNS" = .ok (.arr [recJohn, recJane]) ∧
    transformGetResponse gridNA cfgLineOnly "ROWS" =
      .ok (.obj [("name", .arr [.str "age"]), ("John", .arr [.num 30]),
        ("Jane", .arr [.num 25])]) := by
  constructor
  · simp [transformGetResponse, gridNA, cfgLineOnly, copyValuesArray, _transformToObjectArray,
      buildRecord, List.enum, objAssign, toPropKey, recJohn, recJane]
  · simp [transformGetResponse, gridNA, cfgLineOnly, copyValuesArray, _transformWithSingleHeader,
      objAssign, toPropKey]

/-- C1 counterexample: decoding the encoded grid with the line-header-only
configuration and major dimension ROWS (the dimension in which it was
written) yields the label-to-array mapping, not a record array structurally
equal to the original input. -/
theorem C1_roundtrip_rows_counterexample :
    transform (.arr [recJohn, recJane]) cfgWrite = .ok (gridVal gridNA) ∧
    transformGetResponse gridNA cfgLineOnly "ROWS" =
      .ok (.obj [("name", .arr [.str "age"]), ("John", .arr [.num 30]),
        ("Jane", .arr [.num 25])]) ∧
    JSVal.obj [("name", .arr [.str "age"]), ("John", .arr [.num 30]),
        ("Jane", .arr [.num 25])] ≠ .arr [recJohn, recJane] := by
  refine ⟨?_, ?_, by simp⟩
  · simp [transform, recJohn, recJane, cfgWrite, gridNA, fieldsOf, isArrayVal, isTypeofObject,
      transformArrayOfObjects, extractObjectValues, extractGo, enumEntries, fullKey, lengthUndef,
      List.lookup, gridVal]
  · simp [transformGetResponse, gridNA, cfgLineOnly, copyValuesArray, _transformWithSingleHeader,
      objAssign, toPropKey]

/-- C1 amended: the round trip holds with the major dimension that takes the
orientation-mismatch branch: encoding the two records with all fields, line
header and method new yields the grid name, age / John, 30 / Jane, 25, and
decoding that grid with the line-header-only configuration and major
dimension COLUMNS yields back the original record array. -/
theorem C1_roundtrip_columns :
    transform (.arr [recJohn, recJane]) cfgWrite = .ok (gridVal gridNA) ∧
    transformGetResponse gridNA cfgLineOnly "COLUMNS" = .ok (.arr [recJohn, recJane]) := by
  constructor
  · simp [transform, recJohn, recJane, cfgWrite, gridNA, fieldsOf, isArrayVal, isTypeofObject,
      transformArrayOfObjects, extractObjectValues, extractGo, enumEntries, fullKey, lengthUndef,
      List.lookup, gridVal]
  · simp [transformGetResponse, gridNA, cfgLineOnly, copyValuesArray, _transformToObjectArray,
      buildRecord, List.enum, objAssign, toPropKey, recJohn, recJane]

/-- C8: with neither header flag set, decoding a 1-by-1 grid unwraps and
returns the single cell value itself, and decoding any other grid returns
the grid unchanged in content. -/
theorem C8_no_header_decode (values : Grid) (config : Config) (md : String)
    (hl : config.line = false) (hc : config.column = false) :
    transformGetResponse values config md =
      .ok (match values with
        | [[c]] => c
        | vs => .arr (vs.map JSVal.arr)) := by
  unfold transformGetResponse copyValuesArray
  simp only [hl, hc, Bool.not_false, Bool.and_self, if_true, List.map_id']
  match values with
  | [] => rfl
  | [[c]] => rfl
  | [[]] => rfl
  | [c1 :: c2 :: cs] => rfl
  | [] :: r2 :: rs => rfl
  | [c1] :: r2 :: rs => rfl
  | (c1 :: c2 :: cs) :: r2 :: rs => rfl

/-- C8 witness: decoding the 1-by-1 grid holding 42 with no headers returns
the bare 42. -/
theorem C8_no_header_decode_witness :
    transformGetResponse [[.num 42]] ⟨"", none, "", false, false, none⟩ "ROWS" =
      .ok (.num 42) :=
  C8_no_header_decode [[.num 42]] ⟨"", none, "", false, false, none⟩ "ROWS" rfl rfl

/-- Row access into an encoder result presented through gridVal is plain
list indexing. -/
theorem rowAt_gridVal (g : Grid) (i : Nat) : rowAt (gridVal g) i = g.get? i := by
  simp only [rowAt, gridVal, List.get?_eq_getElem?, List.getElem?_map]
  cases h : g[i]? <;> simp [h]

/-- If the list built by prepending zipped labels has a row at index i, that
row starts with the i-th label. -/
theorem zip_prepend_head (labels : List String) (rows : Grid) (i : Nat) (row : List JSVal)
    (h : ((labels.zip rows).map (fun p => JSVal.str p.1 :: p.2)).get? i = some row) :
    row.get? 0 = some (.str ((labels.get? i).getD "")) := by
  induction labels generalizing rows i with
  | nil => simp at h
  | cons a as ih =>
    cases rows with
    | nil => simp at h
    | cons r rs =>
      cases i with
      | zero =>
        simp only [List.zip_cons_cons, List.map_cons, List.get?] at h
        cases h
        rfl
      | succ j =>
        simp only [List.zip_cons_cons, List.map_cons, List.get?] at h
        exact ih rs j h

/-- Heads of the rows of a successful addColumnLabels run with line headers:
row 0 starts with the synthetic corner label and every later row with its
own label. -/
theorem addColumnLabels_heads_line (hdr : List JSVal) (values : Grid) (labels : List String)
    (g : Grid) (hlen : labels.length = values.length)
    (h : addColumnLabels (hdr :: values) labels true = .ok g) :
    (∀ r, g.get? 0 = some r → r.get? 0 = some (.str "Elements")) ∧
    (∀ i r, g.get? (i + 1) = some r → r.get? 0 = some (.str ((labels.get? i).getD ""))) := by
  rw [addColumnLabels.eq_def] at h
  rw [if_pos rfl] at h
  dsimp only at h
  rw [if_pos (le_of_eq hlen)] at h
  rw [hlen, List.drop_length, List.append_nil] at h
  cases h
  constructor
  · intro r hr
    cases hr
    rfl
  · intro i r hr
    exact zip_prepend_head labels values i r hr

/-- Heads of the rows of a successful addColumnLabels run without line
headers: every row starts with its own label. -/
theorem addColumnLabels_heads_noline (values : Grid) (labels : List String) (g : Grid)
    (hlen : labels.length = values.length)
    (h : addColumnLabels values labels false = .ok g) :
    ∀ i r, g.get? i = some r → r.get? 0 = some (.str ((labels.get? i).getD "")) := by
  rw [addColumnLabels.eq_def] at h
  rw [if_neg (by simp)] at h
  rw [if_pos (le_of_eq hlen)] at h
  rw [hlen, List.drop_length, List.append_nil] at h
  cases h
  intro i r hr
  exact zip_prepend_head labels values i r hr

/-- C5 counterexample: with columnHeader true but method different from
"new", the encoder adds no row labels at all: the one-entry mapping from a
to the record with field x = 1 encodes to the single row 1, whose element 0
is 1, not the mapping key a. -/
theorem C5_method_gating_counterexample :
    transform (.obj [("a", .obj [("x", .num 1)])]) ⟨"all", none, "append", false, true, none⟩ =
      .ok (gridVal [[.num 1]]) ∧
    JSVal.num 1 ≠ .str "a" := by
  constructor
  · simp [transform, lengthUndef, List.lookup, transformObjectOfObjects, fieldsOf,
      extractObjectValues, enumEntries, extractGo, fullKey, Except.map, gridVal]
  · simp

/-- C5 amended: for every mapping of key to record encoded with columnHeader
true and, additionally, method "new" (the code adds column labels only on
new-sheet writes), every emitted data row has element 0 equal to its mapping
key; and if lineHeader is also true, the prepended header row has the
synthetic corner label "Elements" as its element 0, with each row label one
row further down to stay aligned. -/
theorem C5_column_labels_amended (fs : List (String × JSVal)) (config : Config) (v : JSVal)
    (hu : lengthUndef fs = true) (hm : config.method = "new") (hc : config.column = true)
    (hv : transform (.obj fs) config = .ok v) :
    (config.line = true →
      (∀ r, rowAt v 0 = some r → r.get? 0 = some (.str "Elements")) ∧
      (∀ i r, rowAt v (i + 1) = some r →
        r.get? 0 = some (.str (((fs.map Prod.fst).get? i).getD "")))) ∧
    (config.line = false →
      ∀ i r, rowAt v i = some r →
        r.get? 0 = some (.str (((fs.map Prod.fst).get? i).getD ""))) := by
  simp only [transform, hu, if_true] at hv
  obtain ⟨g, hoo, rfl⟩ : ∃ g, transformObjectOfObjects fs config (fieldsOf config) = .ok g ∧
      v = gridVal g := by
    cases hx : transformObjectOfObjects fs config (fieldsOf config) with
    | ok g =>
      rw [hx] at hv
      refine ⟨g, rfl, ?_⟩
      simpa [Except.map] using hv.symm
    | error e =>
      rw [hx] at hv
      simp [Except.map] at hv
  have hmB : (config.method == "new") = true := by simp [hm]
  have key : (config.line = true →
      (∀ r, g.get? 0 = some r → r.get? 0 = some (.str "Elements")) ∧
      (∀ i r, g.get? (i + 1) = some r →
        r.get? 0 = some (.str (((fs.map Prod.fst).get? i).getD "")))) ∧
      (config.line = false →
      ∀ i r, g.get? i = some r →
        r.get? 0 = some (.str (((fs.map Prod.fst).get? i).getD ""))) := by
    by_cases hall : (config.fields == "all") = true
    · simp only [transformObjectOfObjects, hall, hmB, hc, if_true] at hoo
      cases hline : config.line with
      | true =>
        rw [hline] at hoo
        simp only [if_true] at hoo
        refine ⟨fun _ => ?_, fun hf => by simp [hline] at hf⟩
        exact addColumnLabels_heads_line _ _ _ _ (by simp) hoo
      | false =>
        rw [hline] at hoo
        simp only [Bool.false_eq_true, if_false] at hoo
        refine ⟨fun hf => by simp [hline] at hf, fun _ => ?_⟩
        exact addColumnLabels_heads_noline _ _ _ (by simp) hoo
    · have hall' : (config.fields == "all") = false := by simpa using hall
      simp only [transformObjectOfObjects, hall', Bool.false_eq_true, if_false] at hoo
      cases hfl : fieldsOf config with
      | some fl =>
        rw [hfl] at hoo
        simp only [hmB, hc, if_true] at hoo
        cases hline : config.line with
        | true =>
          rw [hline] at hoo
          simp only [if_true] at hoo
          refine ⟨fun _ => ?_, fun hf => by simp [hline] at hf⟩
          exact addColumnLabels_heads_line _ _ _ _ (by simp) hoo
        | false =>
          rw [hline] at hoo
          simp only [Bool.false_eq_true, if_false] at hoo
          refine ⟨fun hf => by simp [hline] at hf, fun _ => ?_⟩
          exact addColumnLabels_heads_noline _ _ _ (by simp) hoo
      | none =>
        rw [hfl] at hoo
        have hg : ([] : Grid) = g := by simpa using hoo
        subst hg
        exact ⟨fun _ => ⟨fun r hr => by simp at hr, fun i r hr => by simp at hr⟩,
          fun _ => fun i r hr => by simp at hr⟩
  refine ⟨fun hl => ?_, fun hl => ?_⟩
  · obtain ⟨k1, k2⟩ := key.1 hl
    exact ⟨fun r hr => k1 r (by rwa [rowAt_gridVal] at hr),
      fun i r hr => k2 i r (by rwa [rowAt_gridVal] at hr)⟩
  · exact fun i r hr => key.2 hl i r (by rwa [rowAt_gridVal] at hr)

/-- C5 witness: the one-entry mapping from a to the record with field
x = 1, encoded with all fields, method new and both header flags; the data
row at index 1 starts with the mapping key a. -/
theorem C5_column_labels_amended_witness :
    lengthUndef [("a", JSVal.obj [("x", JSVal.num 1)])] = true ∧
    [JSVal.str "a", JSVal.num 1].get? 0 = some (.str "a") := by
  refine ⟨rfl, ?_⟩
  exact ((C5_column_labels_amended [("a", .obj [("x", .num 1)])]
    ⟨"all", none, "new", true, true, none⟩
    (gridVal [[.str "Elements", .str "x"], [.str "a", .num 1]]) rfl rfl rfl (by
      simp [transform, lengthUndef, List.lookup, transformObjectOfObjects, fieldsOf, objIndex,
        extractObjectValues, enumEntries, extractGo, fullKey, addColumnLabels,
        Except.map])).1 rfl).2 0 [JSVal.str "a", JSVal.num 1] rfl

theorem extFrom_refl (σ : Store) : ExtFrom σ σ :=
  ⟨le_refl _, fun _ _ => rfl⟩

theorem extFrom_alloc (σ0 σ : Store) (l : List RCell) (h : ExtFrom σ0 σ) :
    ExtFrom σ0 (allocA σ l).2 := by
  obtain ⟨h1, h2⟩ := h
  constructor
  · simp only [allocA, List.length_append, List.length_cons, List.length_nil]
    omega
  · intro i hi
    have hlt : i < σ.arrs.length := lt_of_lt_of_le hi h1
    simp only [allocA]
    rw [List.get?_append hlt]
    exact h2 i hi

theorem extFrom_write (σ0 σ : Store) (j : Nat) (l : List RCell) (h : ExtFrom σ0 σ)
    (hj : σ0.arrs.length ≤ j) : ExtFrom σ0 (writeA σ j l) := by
  obtain ⟨h1, h2⟩ := h
  constructor
  · simpa [writeA] using h1
  · intro i hi
    simp only [writeA]
    rw [List.get?_set_ne _ _ (by omega)]
    exact h2 i hi

theorem readA_eq_of_extFrom (σ0 σ : Store) (h : ExtFrom σ0 σ) (i : Nat)
    (hi : i < σ0.arrs.length) : readA σ i = readA σ0 i := by
  unfold readA
  rw [h.2 i hi]

theorem readA_alloc_self (σ : Store) (l : List RCell) :
    readA (allocA σ l).2 (allocA σ l).1 = l := by
  simp [readA, allocA, List.get?_concat_length]

theorem write_fresh_preserves (σ σ1 : Store) (j : Nat) (l : List RCell) (h : ExtFrom σ σ1)
    (hj : σ.arrs.length ≤ j) (i : Nat) (hi : i < σ.arrs.length) :
    (writeA σ1 j l).arrs.get? i = σ.arrs.get? i :=
  (extFrom_write σ σ1 j l h hj).2 i hi

/-- The row-copy loop extends the store and every array reference it places
in the copied row list is freshly allocated. -/
theorem copyRowsRef_ext (σ0 : Store) (cells : List RCell) :
    ∀ σ : Store, ExtFrom σ0 σ →
      ExtFrom σ0 (copyRowsRef σ cells).2 ∧
      ∀ c ∈ (copyRowsRef σ cells).1, ∀ rid, c = .ref rid → σ0.arrs.length ≤ rid := by
  induction cells with
  | nil =>
    intro σ h
    exact ⟨h, by simp [copyRowsRef]⟩
  | cons c rest ih =>
    intro σ h
    cases c with
    | ref rid =>
      simp only [copyRowsRef]
      obtain ⟨h2, h3⟩ := ih _ (extFrom_alloc σ0 σ _ h)
      refine ⟨h2, ?_⟩
      intro c' hc' r hr
      rcases List.mem_cons.mp hc' with rfl | hmem
      · cases hr
        exact h.1
      · exact h3 c' hmem r hr
    | v x =>
      simp only [copyRowsRef]
      obtain ⟨h2, h3⟩ := ih σ h
      refine ⟨h2, ?_⟩
      intro c' hc' r hr
      rcases List.mem_cons.mp hc' with rfl | hmem
      · simp at hr
      · exact h3 c' hmem r hr
    | objv fs =>
      simp only [copyRowsRef]
      obtain ⟨h2, h3⟩ := ih σ h
      refine ⟨h2, ?_⟩
      intro c' hc' r hr
      rcases List.mem_cons.mp hc' with rfl | hmem
      · simp at hr
      · exact h3 c' hmem r hr

/-- The defensive copy extends the store, its outer array is fresh, and all
row references it contains are fresh. -/
theorem copyValuesArrayRef_ext (σ : Store) (vid : Nat) :
    ExtFrom σ (copyValuesArrayRef σ vid).2 ∧
    σ.arrs.length ≤ (copyValuesArrayRef σ vid).1 ∧
    ∀ c ∈ readA (copyValuesArrayRef σ vid).2 (copyValuesArrayRef σ vid).1,
      ∀ rid, c = .ref rid → σ.arrs.length ≤ rid := by
  obtain ⟨h1, h2⟩ := copyRowsRef_ext σ (readA σ vid) σ (extFrom_refl σ)
  simp only [copyValuesArrayRef]
  refine ⟨extFrom_alloc σ _ _ h1, h1.1, ?_⟩
  intro c hc rid hr
  rw [readA_alloc_self] at hc
  exact h2 c hc rid hr

/-- The single-header row loop writes only at the listed (fresh) row
references. -/
theorem singleLoopRef_ext (σ0 : Store) (cells : List RCell) :
    ∀ (σ : Store) (acc : List (String × RDec)), ExtFrom σ0 σ →
      (∀ c ∈ cells, ∀ rid, c = .ref rid → σ0.arrs.length ≤ rid) →
      ExtFrom σ0 (singleLoopRef σ cells acc).2 := by
  induction cells with
  | nil =>
    intro σ acc h _
    simpa [singleLoopRef] using h
  | cons c rest ih =>
    intro σ acc h hc
    cases c with
    | ref rid =>
      simp only [singleLoopRef]
      apply ih
      · exact extFrom_write σ0 σ rid _ h (hc (.ref rid) (by simp) rid rfl)
      · intro c' hc' r hr
        exact hc c' (List.mem_cons_of_mem _ hc') r hr
    | v x => simpa [singleLoopRef] using h
    | objv fs => simpa [singleLoopRef] using h

/-- The dual-header row loop writes only at the listed (fresh) row
references. -/
theorem bothLoopRef_ext (σ0 : Store) (lid : RCell) (cells : List RCell) :
    ∀ (σ : Store) (acc : List (String × RDec)), ExtFrom σ0 σ →
      (∀ c ∈ cells, ∀ rid, c = .ref rid → σ0.arrs.length ≤ rid) →
      ExtFrom σ0 (bothLoopRef lid σ cells acc).2 := by
  induction cells with
  | nil =>
    intro σ acc h _
    simpa [bothLoopRef] using h
  | cons c rest ih =>
    intro σ acc h hc
    cases c with
    | ref rid =>
      simp only [bothLoopRef]
      apply ih
      · exact extFrom_write σ0 σ rid _ h (hc (.ref rid) (by simp) rid rfl)
      · intro c' hc' r hr
        exact hc c' (List.mem_cons_of_mem _ hc') r hr
    | v x => simpa [bothLoopRef] using h
    | objv fs => simpa [bothLoopRef] using h

theorem singleHeaderRef_ext (σ0 σ : Store) (cid : Nat) (h : ExtFrom σ0 σ)
    (hcells : ∀ c ∈ readA σ cid, ∀ rid, c = .ref rid → σ0.arrs.length ≤ rid) :
    ExtFrom σ0 (_transformWithSingleHeaderRef σ cid).2 := by
  have hloop := singleLoopRef_ext σ0 (readA σ cid) σ [] h hcells
  simp only [_transformWithSingleHeaderRef]
  cases hr : (singleLoopRef σ (readA σ cid) []).1 <;> simpa [hr] using hloop

theorem bothHeadersRef_ext (σ0 σ : Store) (cid : Nat) (h : ExtFrom σ0 σ)
    (hcid : σ0.arrs.length ≤ cid)
    (hcells : ∀ c ∈ readA σ cid, ∀ rid, c = .ref rid → σ0.arrs.length ≤ rid) :
    ExtFrom σ0 (_transformWithBothHeadersRef σ cid).2 := by
  simp only [_transformWithBothHeadersRef]
  cases hrows : readA σ cid with
  | nil => exact h
  | cons first rest =>
    have hσ1 : ExtFrom σ0 (writeA σ cid rest) := extFrom_write σ0 σ cid rest h hcid
    cases first with
    | ref lid =>
      have hlid : σ0.arrs.length ≤ lid := hcells (.ref lid) (by rw [hrows]; simp) lid rfl
      have hσ2 : ExtFrom σ0
          (writeA (writeA σ cid rest) lid (readA (writeA σ cid rest) lid).tail) :=
        extFrom_write σ0 _ lid _ hσ1 hlid
      have hloop := bothLoopRef_ext σ0 (.ref lid) rest _ [] hσ2
        (fun c hc r hrr => hcells c (by rw [hrows]; exact List.mem_cons_of_mem _ hc) r hrr)
      cases hb : (bothLoopRef (.ref lid)
          (writeA (writeA σ cid rest) lid (readA (writeA σ cid rest) lid).tail) rest []).1 <;>
        simpa [hb] using hloop
    | v x => exact hσ1
    | objv fs => exact hσ1

theorem objectArrayRef_ext (σ0 σ : Store) (cid : Nat) (h : ExtFrom σ0 σ)
    (hcid : σ0.arrs.length ≤ cid) :
    ExtFrom σ0 (_transformToObjectArrayRef σ cid).2 := by
  simp only [_transformToObjectArrayRef]
  cases hrows : readA σ cid with
  | nil => exact h
  | cons first rest => exact extFrom_write σ0 σ cid rest h hcid

/-- C6: decoding never mutates the caller's grid.  The decoder first copies
the grid (copyValuesArrayRef) and every later in-place shift targets an
array of that fresh copy, so the whole store below its old size — in
particular the input grid's outer array and every one of its rows — still
holds exactly its old contents after the call, whatever the header
configuration and major dimension. -/
theorem C6_decode_preserves_input (σ : Store) (vid : Nat) (config : Config) (md : String) :
    ExtFrom σ (transformGetResponseRef σ vid config md).2 ∧
    (vid < σ.arrs.length →
      readA (transformGetResponseRef σ vid config md).2 vid = readA σ vid) ∧
    (∀ c ∈ readA σ vid, ∀ rid, c = .ref rid → rid < σ.arrs.length →
      readA (transformGetResponseRef σ vid config md).2 rid = readA σ rid) := by
  have hext : ExtFrom σ (transformGetResponseRef σ vid config md).2 := by
    obtain ⟨hc1, hc2, hc3⟩ := copyValuesArrayRef_ext σ vid
    simp only [transformGetResponseRef]
    split
    · split
      · exact hc1
      · exact hc1
    · split
      · exact bothHeadersRef_ext σ _ _ hc1 hc2 hc3
      · split
        · exact singleHeaderRef_ext σ _ _ hc1 hc3
        · exact objectArrayRef_ext σ _ _ hc1 hc2
  exact ⟨hext, fun hv => readA_eq_of_extFrom σ _ hext vid hv,
    fun c hc rid hr hrlt => readA_eq_of_extFrom σ _ hext rid hrlt⟩

/-- C6 witness: a store holding one two-row grid, decoded along the
mutating single-header path; the grid's outer array still reads the same
afterwards. -/
theorem C6_decode_preserves_input_witness :
    (0 : Nat) < 3 ∧
    readA (transformGetResponseRef
      ⟨[[RCell.ref 1, RCell.ref 2], [.v (.s "name"), .v (.s "age")],
        [.v (.s "John"), .v (.n 30)]]⟩ 0 cfgLineOnly "ROWS").2 0 =
      readA ⟨[[RCell.ref 1, RCell.ref 2], [.v (.s "name"), .v (.s "age")],
        [.v (.s "John"), .v (.n 30)]]⟩ 0 :=
  ⟨by decide,
    (C6_decode_preserves_input
      ⟨[[RCell.ref 1, RCell.ref 2], [.v (.s "name"), .v (.s "age")],
        [.v (.s "John"), .v (.n 30)]]⟩ 0 cfgLineOnly "ROWS").2.1 (by decide)⟩

/-- Allocating the outer array over fresh row references yields a fresh
outer array whose cells are all fresh references. -/
theorem allocOuter_spec (σ0 σ : Store) (rids : List Nat) (h : ExtFrom σ0 σ)
    (hr : ∀ r ∈ rids, σ0.arrs.length ≤ r) :
    ExtFrom σ0 (allocA σ (rids.map RCell.ref)).2 ∧
    σ0.arrs.length ≤ (allocA σ (rids.map RCell.ref)).1 ∧
    ∀ c ∈ readA (allocA σ (rids.map RCell.ref)).2 (allocA σ (rids.map RCell.ref)).1,
      ∀ rid, c = .ref rid → σ0.arrs.length ≤ rid := by
  refine ⟨extFrom_alloc σ0 σ _ h, h.1, ?_⟩
  intro c hc rid hr'
  rw [readA_alloc_self] at hc
  obtain ⟨r, hrm, rfl⟩ := List.mem_map.mp hc
  injection hr' with he
  exact he ▸ hr r hrm

/-- The all-fields row loop extends the store and allocates only fresh
rows. -/
theorem aooLoopAll_ext (σ0 : Store) (rows : List RCell) :
    ∀ σ : Store, ExtFrom σ0 σ →
      ExtFrom σ0 (aooLoopAll σ rows).2 ∧
      ∀ rid ∈ (aooLoopAll σ rows).1, σ0.arrs.length ≤ rid := by
  induction rows with
  | nil =>
    intro σ h
    exact ⟨h, by simp [aooLoopAll]⟩
  | cons o rest ih =>
    intro σ h
    simp only [aooLoopAll]
    obtain ⟨h1, h2⟩ := ih _ (extFrom_alloc σ0 σ _ h)
    refine ⟨h1, ?_⟩
    intro rid hrid
    rcases List.mem_cons.mp hrid with rfl | hmem
    · exact h.1
    · exact h2 rid hmem

/-- The selected-fields row loop extends the store and allocates only fresh
rows. -/
theorem aooLoopSel_ext (σ0 : Store) (fl : List String) (rows : List RCell) :
    ∀ σ : Store, ExtFrom σ0 σ →
      ExtFrom σ0 (aooLoopSel fl σ rows).2 ∧
      ∀ rid ∈ (aooLoopSel fl σ rows).1, σ0.arrs.length ≤ rid := by
  induction rows with
  | nil =>
    intro σ h
    exact ⟨h, by simp [aooLoopSel]⟩
  | cons o rest ih =>
    intro σ h
    simp only [aooLoopSel]
    obtain ⟨h1, h2⟩ := ih _ (extFrom_alloc σ0 σ _ h)
    refine ⟨h1, ?_⟩
    intro rid hrid
    rcases List.mem_cons.mp hrid with rfl | hmem
    · exact h.1
    · exact h2 rid hmem

/-- The label loop only unshifts onto the listed (fresh) rows. -/
theorem labelLoopRef_ext (σ0 : Store) (ls : List String) :
    ∀ (rids : List Nat) (σ : Store), ExtFrom σ0 σ →
      (∀ r ∈ rids, σ0.arrs.length ≤ r) →
      ExtFrom σ0 (labelLoopRef σ ls rids).2 := by
  induction ls with
  | nil =>
    intro rids σ h _
    simpa [labelLoopRef] using h
  | cons l ls ih =>
    intro rids σ h hr
    cases rids with
    | nil => simpa [labelLoopRef] using h
    | cons r0 rest =>
      simp only [labelLoopRef]
      apply ih rest
      · exact extFrom_write σ0 σ r0 _ h (hr r0 (by simp))
      · intro r hm
        exact hr r (List.mem_cons_of_mem _ hm)

/-- addColumnLabelsRef only unshifts onto the listed (fresh) rows. -/
theorem addColumnLabelsRef_ext (σ0 σ : Store) (rowIds : List Nat) (labels : List String)
    (hl : Bool) (h : ExtFrom σ0 σ) (hr : ∀ r ∈ rowIds, σ0.arrs.length ≤ r) :
    ExtFrom σ0 (addColumnLabelsRef σ rowIds labels hl).2 := by
  unfold addColumnLabelsRef
  split
  · cases rowIds with
    | nil => exact h
    | cons r0 rest =>
      apply labelLoopRef_ext σ0 labels rest
      · exact extFrom_write σ0 σ r0 _ h (hr r0 (by simp))
      · intro r hm
        exact hr r (List.mem_cons_of_mem _ hm)
  · exact labelLoopRef_ext σ0 labels rowIds σ h hr

/-- transformArrayOfObjectsRef extends the store; its result is a fresh
outer array all of whose cells are fresh row references. -/
theorem transformArrayOfObjectsRef_spec (σ : Store) (rows : List RCell) (config : Config)
    (fields : Option (List String)) :
    ExtFrom σ (transformArrayOfObjectsRef σ rows config fields).2 ∧
    σ.arrs.length ≤ (transformArrayOfObjectsRef σ rows config fields).1 ∧
    ∀ c ∈ readA (transformArrayOfObjectsRef σ rows config fields).2
        (transformArrayOfObjectsRef σ rows config fields).1,
      ∀ rid, c = .ref rid → σ.arrs.length ≤ rid := by
  unfold transformArrayOfObjectsRef
  split
  · obtain ⟨h1, h2⟩ := aooLoopAll_ext σ rows σ (extFrom_refl σ)
    split
    · have hhid : σ.arrs.length ≤ ((allocA (aooLoopAll σ rows).2
          ((extractObjectValuesRef (aooLoopAll σ rows).2
            ((rows.get? 0).getD (.v .jsundef))).1.map (fun k => RCell.v (.s k)))).1) := h1.1
      have hhext := extFrom_alloc σ _ ((extractObjectValuesRef (aooLoopAll σ rows).2
          ((rows.get? 0).getD (.v .jsundef))).1.map (fun k => RCell.v (.s k))) h1
      exact allocOuter_spec σ _ (_ :: (aooLoopAll σ rows).1) hhext (by
        intro r hrm
        rcases List.mem_cons.mp hrm with rfl | hmem
        · exact hhid
        · exact h2 r hmem)
    · exact allocOuter_spec σ _ _ h1 h2
  · split
    · rename_i fl
      obtain ⟨h1, h2⟩ := aooLoopSel_ext σ fl rows σ (extFrom_refl σ)
      split
      · have hhext := extFrom_alloc σ (aooLoopSel fl σ rows).2
          (fl.map (fun k => RCell.v (.s k))) h1
        refine allocOuter_spec σ _
          ((allocA (aooLoopSel fl σ rows).2 (fl.map (fun k => RCell.v (.s k)))).1 ::
            (aooLoopSel fl σ rows).1) hhext ?_
        intro r hrm
        rcases List.mem_cons.mp hrm with rfl | hmem
        · exact h1.1
        · exact h2 r hmem
      · exact allocOuter_spec σ _ _ h1 h2
    · exact allocOuter_spec σ _ [] (extFrom_refl σ) (by simp)

/-- The shared object-of-objects tail extends the store; on success its
result is a fresh outer array whose cells are fresh row references. -/
theorem oooFinish_spec (σ0 σ2 : Store) (rids1 : List Nat) (labels : List String)
    (ln col : Bool) (h : ExtFrom σ0 σ2) (hr : ∀ r ∈ rids1, σ0.arrs.length ≤ r) :
    ExtFrom σ0 (oooFinish σ2 rids1 labels ln col).2 ∧
    ∀ oid, (oooFinish σ2 rids1 labels ln col).1 = .ok oid →
      σ0.arrs.length ≤ oid ∧
      ∀ c ∈ readA (oooFinish σ2 rids1 labels ln col).2 oid, ∀ rid, c = .ref rid →
        σ0.arrs.length ≤ rid := by
  unfold oooFinish
  have hlab := addColumnLabelsRef_ext σ0 σ2 rids1 labels ln h hr
  split
  · cases hacl : (addColumnLabelsRef σ2 rids1 labels ln).1 with
    | ok u =>
      simp only [hacl]
      obtain ⟨a1, a2, a3⟩ := allocOuter_spec σ0 _ rids1 hlab hr
      refine ⟨a1, ?_⟩
      intro oid hok
      injection hok with he
      exact he ▸ ⟨a2, a3⟩
    | error e =>
      simp only [hacl]
      exact ⟨hlab, fun oid hok => by cases hok⟩
  · obtain ⟨a1, a2, a3⟩ := allocOuter_spec σ0 _ rids1 h hr
    refine ⟨a1, ?_⟩
    intro oid hok
    injection hok with he
    exact he ▸ ⟨a2, a3⟩

/-- transformObjectOfObjectsRef extends the store; on success its result is
a fresh outer array whose cells are fresh row references. -/
theorem transformObjectOfObjectsRef_spec (σ : Store) (data : List (String × RCell))
    (config : Config) (fields : Option (List String)) :
    ExtFrom σ (transformObjectOfObjectsRef σ data config fields).2 ∧
    ∀ oid, (transformObjectOfObjectsRef σ data config fields).1 = .ok oid →
      σ.arrs.length ≤ oid ∧
      ∀ c ∈ readA (transformObjectOfObjectsRef σ data config fields).2 oid,
        ∀ rid, c = .ref rid → σ.arrs.length ≤ rid := by
  unfold transformObjectOfObjectsRef
  split
  · obtain ⟨h1, h2⟩ := aooLoopAll_ext σ (data.map Prod.snd) σ (extFrom_refl σ)
    split
    · split
      · refine oooFinish_spec σ _ _ _ _ _ (extFrom_alloc σ _ _ h1) ?_
        intro r hrm
        rcases List.mem_cons.mp hrm with rfl | hmem
        · exact h1.1
        · exact h2 r hmem
      · exact oooFinish_spec σ _ _ _ _ _ h1 h2
    · obtain ⟨a1, a2, a3⟩ := allocOuter_spec σ _ _ h1 h2
      refine ⟨a1, ?_⟩
      intro oid hok
      injection hok with he
      exact he ▸ ⟨a2, a3⟩
  · split
    · rename_i fl
      obtain ⟨h1, h2⟩ := aooLoopSel_ext σ fl (data.map Prod.snd) σ (extFrom_refl σ)
      split
      · split
        · refine oooFinish_spec σ _ _ _ _ _ (extFrom_alloc σ _ _ h1) ?_
          intro r hrm
          rcases List.mem_cons.mp hrm with rfl | hmem
          · exact h1.1
          · exact h2 r hmem
        · exact oooFinish_spec σ _ _ _ _ _ h1 h2
      · obtain ⟨a1, a2, a3⟩ := allocOuter_spec σ _ _ h1 h2
        refine ⟨a1, ?_⟩
        intro oid hok
        injection hok with he
        exact he ▸ ⟨a2, a3⟩
    · obtain ⟨a1, a2, a3⟩ := allocOuter_spec σ σ [] (extFrom_refl σ) (by simp)
      refine ⟨a1, ?_⟩
      intro oid hok
      injection hok with he
      exact he ▸ ⟨a2, a3⟩

/-- The 1-by-1 wrap branches of transformRef allocate a fresh row and a
fresh outer array. -/
theorem scalarWrap_spec (σ : Store) (c : RCell) (oid : Nat)
    (h : (allocA (allocA σ [c]).2 [.ref (allocA σ [c]).1]).1 = oid) :
    ExtFrom σ (allocA (allocA σ [c]).2 [.ref (allocA σ [c]).1]).2 ∧
    σ.arrs.length ≤ oid ∧
    ∀ c' ∈ readA (allocA (allocA σ [c]).2 [.ref (allocA σ [c]).1]).2 oid,
      ∀ rid, c' = .ref rid → σ.arrs.length ≤ rid := by
  subst h
  refine ⟨extFrom_alloc σ _ _ (extFrom_alloc σ σ _ (extFrom_refl σ)),
    (extFrom_alloc σ σ _ (extFrom_refl σ)).1, ?_⟩
  intro c' hc rid hr
  rw [readA_alloc_self] at hc
  rw [List.mem_singleton] at hc
  subst hc
  injection hr with he
  simp only [allocA] at he
  omega

/-- The concrete store of the aliasing counterexample: the array with
identity 0 is a two-row grid whose rows are the arrays 1 and 2. -/
def aliasStore : Store :=
  ⟨[[RCell.ref 1, RCell.ref 2], [.v (.n 1), .v (.n 2)], [.v (.n 3), .v (.n 4)]]⟩

/-- C4 counterexample: encoding the grid-shaped input returns the very same
array reference (the pass-through branch), so pushing a cell onto the
returned outer array changes what the caller's input array holds. -/
theorem C4_passthrough_alias_counterexample :
    transformRef aliasStore (.ref 0) cfgWrite = (.ok (.ref 0), aliasStore) ∧
    readA (pushCell aliasStore 0 (.v (.n 9))) 0 ≠ readA aliasStore 0 := by
  constructor
  · rfl
  · intro hcontra
    have hlen := congrArg List.length hcontra
    simp [pushCell, writeA, readA, aliasStore] at hlen

/-- C4 amended: except for grid-shaped inputs — which the pass-through
branch returns by reference, as the counterexample shows — a successful
encode returns a freshly allocated outer array whose cells are freshly
allocated row references, the encode itself leaves every pre-existing array
unchanged, and mutating the returned outer array or any of its rows leaves
every pre-existing array unchanged.  Array-valued leaf cells inside the
rows are still emitted verbatim and may alias the input. -/
theorem C4_fresh_rows_amended (σ : Store) (data : RCell) (config : Config)
    (hnp : isGridShapedR σ data = false) (oid : Nat)
    (h : (transformRef σ data config).1 = .ok (.ref oid)) :
    ExtFrom σ (transformRef σ data config).2 ∧
    σ.arrs.length ≤ oid ∧
    (∀ c ∈ readA (transformRef σ data config).2 oid, ∀ rid, c = .ref rid →
      σ.arrs.length ≤ rid) ∧
    (∀ l i, i < σ.arrs.length →
      (writeA (transformRef σ data config).2 oid l).arrs.get? i = σ.arrs.get? i) ∧
    (∀ c ∈ readA (transformRef σ data config).2 oid, ∀ rid, c = .ref rid → ∀ l i,
      i < σ.arrs.length →
      (writeA (transformRef σ data config).2 rid l).arrs.get? i = σ.arrs.get? i) := by
  have key : ExtFrom σ (transformRef σ data config).2 ∧ σ.arrs.length ≤ oid ∧
      ∀ c ∈ readA (transformRef σ data config).2 oid, ∀ rid, c = .ref rid →
        σ.arrs.length ≤ rid := by
    cases data with
    | v x =>
      cases x with
      | jsnull => simp [transformRef] at h
      | jsundef => simp [transformRef] at h
      | s sv =>
        rw [transformRef.eq_def] at h ⊢
        dsimp only at h ⊢
        injection h with h1
        injection h1 with h2
        exact scalarWrap_spec σ _ oid h2
      | n nv =>
        rw [transformRef.eq_def] at h ⊢
        dsimp only at h ⊢
        injection h with h1
        injection h1 with h2
        exact scalarWrap_spec σ _ oid h2
      | b bv =>
        rw [transformRef.eq_def] at h ⊢
        dsimp only at h ⊢
        injection h with h1
        injection h1 with h2
        exact scalarWrap_spec σ _ oid h2
    | objv fs =>
      rw [transformRef.eq_def] at h ⊢
      by_cases hu : lengthUndefR fs = true
      · simp only [hu, if_true] at h ⊢
        obtain ⟨o1, o2⟩ := transformObjectOfObjectsRef_spec σ fs config (fieldsOf config)
        cases hoo : (transformObjectOfObjectsRef σ fs config (fieldsOf config)).1 with
        | ok o =>
          rw [hoo] at h
          dsimp only at h ⊢
          injection h with h1
          injection h1 with h2
          subst h2
          exact ⟨o1, (o2 o hoo).1, (o2 o hoo).2⟩
        | error e =>
          rw [hoo] at h
          dsimp only at h
          cases h
      · simp only [hu, Bool.false_eq_true, if_false] at h
        cases h
    | ref id =>
      rw [transformRef.eq_def] at h ⊢
      dsimp only at h ⊢
      cases hrows : readA σ id with
      | nil =>
        rw [hrows] at h
        dsimp only at h
        cases h
      | cons x rest =>
        rw [hrows] at h
        dsimp only at h ⊢
        by_cases harr : isArrayCellR x = true
        · exfalso
          rw [isGridShapedR.eq_def] at hnp
          dsimp only at hnp
          rw [hrows] at hnp
          simp [harr] at hnp
        · simp only [harr, Bool.false_eq_true, if_false] at h ⊢
          by_cases hsing : (rest.isEmpty && typeofNotObjectR x) = true
          · simp only [hsing, if_true] at h ⊢
            injection h with h1
            injection h1 with h2
            exact scalarWrap_spec σ _ oid h2
          · simp only [hsing, Bool.false_eq_true, if_false] at h ⊢
            obtain ⟨a1, a2, a3⟩ :=
              transformArrayOfObjectsRef_spec σ (x :: rest) config (fieldsOf config)
            injection h with h1
            injection h1 with h2
            subst h2
            exact ⟨a1, a2, a3⟩
  obtain ⟨k1, k2, k3⟩ := key
  refine ⟨k1, k2, k3, ?_, ?_⟩
  · intro l i hi
    exact write_fresh_preserves σ _ oid l k1 k2 i hi
  · intro c hc rid hr l i hi
    exact write_fresh_preserves σ _ rid l k1 (k3 c hc rid hr) i hi

/-- C4 witness: encoding the bare scalar "x" over the empty store; the
returned outer array has identity 1, fresh for a store of size 0, and the
hypotheses of the amended theorem hold by computation. -/
theorem C4_fresh_rows_amended_witness :
    isGridShapedR ⟨[]⟩ (.v (.s "x")) = false ∧
    (Store.arrs ⟨[]⟩).length ≤ 1 :=
  ⟨rfl, (C4_fresh_rows_amended ⟨[]⟩ (.v (.s "x")) cfgWrite rfl 1 rfl).2.1⟩
